import Mathlib

/-!
Verification of the `textpress.htmlprocessor` doctree subsystem
(`src/textpress/htmlprocessor.py`): the four node variants, the
pickle-based tree codec (`dump_tree` / `load_tree`), rendering,
text extraction, the selector query engine (`_query` / `_iter_all`),
the lazily memoizing `QueryResult`, and the ownership-checked
`NodeList` child sequence.

Modelling conventions:
* Python objects of classes `Node`, `TextNode`, `DataNode`, `Fragment`
  are modelled by one inductive `Tree` carrying a `NodeKind` tag plus
  the shared `__slots__` fields; the `parent` pointer is implied by the
  tree structure (child lists), and `NodeList` mutation is modelled
  separately with an explicit parent map over node identifiers.
* Python `None`-or-string fields become `Option String`.
* Python dicts (`attributes`) become association lists in insertion
  order (first binding wins on lookup; keys are unique in practice).
* `pickle.dumps` / `pickle.loads` are modelled as the identity
  injection on the intermediate structure built by `dump_tree`'s
  `walk`; the empty string returned for falsy trees is modelled as
  `none`, a pickled payload as `some`.
* The plugin event bus (`emit_event('process-node-callback', ...)`) is
  modelled by an ambient `Hook` function returning the first non-`None`
  plugin answer, `none` when no plugin answers.
-/

set_option linter.unusedVariables false

namespace HtmlProcessor

/-- Kind tag distinguishing the four node classes `Node` (element),
`TextNode`, `DataNode` and `Fragment`. -/
inductive NodeKind where
  | element
  | text
  | data
  | fragment
deriving DecidableEq

/-- Doctree node: one constructor carrying the class tag and the shared
`__slots__` fields `name`, `attributes`, `value`, `callback_data` and
`children` of `Node`.  `callback_data` is `None` or a list of
`(identifier, data)` pairs (`data` itself `None` or a string). -/
inductive Tree where
  | mk (kind : NodeKind) (name : Option String)
       (attributes : List (String × String)) (value : Option String)
       (callback_data : Option (List (String × Option String)))
       (children : List Tree)

/-- Class tag of a node. -/
def Tree.kind : Tree → NodeKind
  | .mk k _ _ _ _ _ => k

/-- Tag name of a node (`None` for text/data/fragment as constructed). -/
def Tree.name : Tree → Option String
  | .mk _ n _ _ _ _ => n

/-- Attribute dictionary of a node, in insertion order. -/
def Tree.attributes : Tree → List (String × String)
  | .mk _ _ a _ _ _ => a

/-- Value of a node (text/data payload; `None` on plain elements). -/
def Tree.value : Tree → Option String
  | .mk _ _ _ v _ _ => v

/-- Render-callback list of a node (`None` until a callback is added). -/
def Tree.callback_data : Tree → Option (List (String × Option String))
  | .mk _ _ _ _ cb _ => cb

/-- Child list of a node. -/
def Tree.children : Tree → List Tree
  | .mk _ _ _ _ _ cs => cs

/-- Python truthiness of an `Option String` field: `None` and the empty
string are falsy. -/
def optStrTruthy : Option String → Bool
  | none => false
  | some s => !(s == "")

/-- Python truthiness of the `callback_data` field: `None` and the
empty list are falsy. -/
def cbTruthy : Option (List (String × Option String)) → Bool
  | none => false
  | some cbs => !cbs.isEmpty

/-- Node.__nonzero__: a node is truthy iff it has children, attributes,
callback data or a truthy value. -/
def Tree.nonzero (t : Tree) : Bool :=
  !t.children.isEmpty || !t.attributes.isEmpty ||
    cbTruthy t.callback_data || optStrTruthy t.value

/-- Fragment(): the node produced by the `Fragment` constructor — kind
fragment, no name, empty attributes, no value, no callbacks, no
children. -/
def emptyFragment : Tree := .mk .fragment none [] none none []

/-- Intermediate structure produced by `dump_tree`'s `walk`: the tuple
`(_node_types[node.__class__], children, [name, attributes, value,
callback_data])` that is handed to `pickle.dumps`. -/
inductive PickleTree where
  | mk (typeNum : Nat) (children : List PickleTree) (name : Option String)
       (attributes : List (String × String)) (value : Option String)
       (callback_data : Option (List (String × Option String)))

/-- The `_node_types` table: Node ↦ 0, TextNode ↦ 1, DataNode ↦ 2,
Fragment ↦ 3. -/
def kindToNat : NodeKind → Nat
  | .element => 0
  | .text => 1
  | .data => 2
  | .fragment => 3

/-- The `_node_types_reverse` list indexing: `[Node, TextNode, DataNode,
Fragment][n]`; `none` models the IndexError on an out-of-range tag. -/
def natToKind : Nat → Option NodeKind
  | 0 => some .element
  | 1 => some .text
  | 2 => some .data
  | 3 => some .fragment
  | _ => none

mutual

/-- walk of `dump_tree`: serialize a node into the pickled tuple
structure (children first, then the `_node_members` fields). -/
def dumpWalk : Tree → PickleTree
  | .mk k n a v cb cs => .mk (kindToNat k) (dumpWalkList cs) n a v cb

/-- walk of `dump_tree` mapped over a child list. -/
def dumpWalkList : List Tree → List PickleTree
  | [] => []
  | c :: cs => dumpWalk c :: dumpWalkList cs

end

/-- dump_tree: the empty string (`none`) for a falsy tree, otherwise
the pickled (`some`) result of `walk`. -/
def dump_tree (t : Tree) : Option PickleTree :=
  if t.nonzero then some (dumpWalk t) else none

mutual

/-- walk of `load_tree`: rebuild a node from the pickled tuple,
recreating the class from the type tag and re-assigning the
`_node_members` fields; `none` models the IndexError raised by
`_node_types_reverse[node_type]` on a bad tag. -/
def loadWalk : PickleTree → Option Tree
  | .mk ty pcs n a v cb => do
      let k ← natToKind ty
      let cs ← loadWalkList pcs
      pure (.mk k n a v cb cs)

/-- walk of `load_tree` mapped over a child list. -/
def loadWalkList : List PickleTree → Option (List Tree)
  | [] => some []
  | p :: ps => do
      let c ← loadWalk p
      let cs ← loadWalkList ps
      pure (c :: cs)

end

/-- load_tree: an empty payload (`none`) yields a fresh empty
`Fragment`; otherwise unpickle and rebuild via `walk`. -/
def load_tree : Option PickleTree → Option Tree
  | none => some emptyFragment
  | some p => loadWalk p

/-- Aggregated answer of the `process-node-callback` plugin event bus:
given the callback identifier, its data, the node and the `text_only`
flag, the first non-`None` plugin answer, or `none` when no plugin
answers. -/
def Hook : Type := String → Option String → Tree → Bool → Option String

/-- First non-`none` result of `f` over a list (the plugin loop shape
`for item in ...:` / `if item is not None: return item`). -/
def firstSome {α β : Type} (f : α → Option β) : List α → Option β
  | [] => none
  | x :: xs =>
      match f x with
      | some b => some b
      | none => firstSome f xs

/-- Node._render_callback: `None` when `callback_data` is falsy,
otherwise the first non-`None` plugin answer over the
`(identifier, data)` pairs. -/
def renderCallback (hook : Hook) (t : Tree) (textOnly : Bool) : Option String :=
  match t.callback_data with
  | none => none
  | some cbs =>
      if cbs.isEmpty then none
      else firstSome (fun idpair => hook idpair.1 idpair.2 t textOnly) cbs

/-- Python `str` of an optional string where the Python code assumes
the field holds an actual string (`TextNode.value`, `DataNode.value`);
`none` is totalized to the empty string. -/
def pyStr : Option String → String
  | none => ""
  | some s => s

/-- Python `'%s' % name` formatting of the `name` field: `None`
stringifies to `"None"`. -/
def pyName : Option String → String
  | none => "None"
  | some s => s

/-- Per-character action of `xml.sax.saxutils.escape` (sequentially
replacing `&`, `>`, `<`; equivalent to a single character-wise pass). -/
def escapeChar : Char → String
  | '&' => "&amp;"
  | '>' => "&gt;"
  | '<' => "&lt;"
  | c => String.singleton c

/-- xml.sax.saxutils.escape on a string. -/
def xml_escape (s : String) : String :=
  String.join (s.toList.map escapeChar)

/-- Per-character action of the escape performed inside
`xml.sax.saxutils.quoteattr` (escape plus the `\n`, `\r`, `\t`
entities). -/
def quoteattrChar : Char → String
  | '&' => "&amp;"
  | '>' => "&gt;"
  | '<' => "&lt;"
  | '\n' => "&#10;"
  | '\r' => "&#13;"
  | '\t' => "&#9;"
  | c => String.singleton c

/-- xml.sax.saxutils.quoteattr: escape the value, then wrap it in
double quotes (escaping inner double quotes as `&quot;` only when the
value holds both quote kinds), or single quotes when the value holds a
double quote but no single quote. -/
def quoteattr (s : String) : String :=
  let d := String.join (s.toList.map quoteattrChar)
  if d.contains '"' then
    if d.contains '\'' then "\"" ++ (d.replace "\"" "&quot;") ++ "\""
    else "'" ++ d ++ "'"
  else "\"" ++ d ++ "\""

/-- The fixed list of self closing html tags used by rendering. -/
def SELF_CLOSING_TAGS : List String :=
  ["br", "img", "area", "hr", "param", "meta", "link", "base", "input",
   "embed", "col"]

mutual

/-- Node.render / TextNode.render / DataNode.render / Fragment.render.
For an element: when `inject` is `None` the callback hook may replace
the whole rendering; otherwise the open tag with quoted attributes is
emitted, and unless the tag name is in `SELF_CLOSING_TAGS` the injected
text (or the children's renderings) and the close tag follow.  A text
node renders as its escaped value, a data node as its verbatim value,
and a fragment as the concatenation of its children's renderings — for
those three variants `inject` and `callback_data` are never consulted. -/
def Tree.render (hook : Hook) : Tree → Option String → String
  | .mk .text _ _ v _ _, _ => xml_escape (pyStr v)
  | .mk .data _ _ v _ _, _ => pyStr v
  | .mk .fragment _ _ _ _ cs, _ => String.join (Tree.renderList hook cs)
  | .mk .element n a v cb cs, inject =>
      let t := Tree.mk .element n a v cb cs
      let cbRes : Option String :=
        match inject with
        | none => renderCallback hook t false
        | some _ => none
      match cbRes with
      | some rv => rv
      | none =>
          let nameS := pyName n
          let attributes :=
            String.intercalate " " (a.map (fun kv => kv.1 ++ "=" ++ quoteattr kv.2))
          let openBuf :=
            "<" ++ nameS ++ (if attributes == "" then "" else " " ++ attributes) ++ ">"
          if SELF_CLOSING_TAGS.contains nameS then openBuf
          else
            match inject with
            | some s => openBuf ++ s ++ "</" ++ nameS ++ ">"
            | none =>
                openBuf ++ String.join (Tree.renderList hook cs) ++ "</" ++ nameS ++ ">"

/-- Rendering mapped over a child list (each child rendered with no
injected text). -/
def Tree.renderList (hook : Hook) : List Tree → List String
  | [] => []
  | c :: cs => Tree.render hook c none :: Tree.renderList hook cs

end

mutual

/-- Node.text / TextNode.text / DataNode.text / Fragment.text: the
render-independent text extraction.  `TextNode` overrides it with its
value, `DataNode` with the empty string; `Fragment` inherits the
`Node` implementation (callback check, `br` newline, child join, `p`
double newline). -/
def Tree.text (hook : Hook) : Tree → String
  | .mk .text _ _ v _ _ => pyStr v
  | .mk .data _ _ _ _ _ => ""
  | .mk .element n a v cb cs =>
      let t := Tree.mk .element n a v cb cs
      match renderCallback hook t true with
      | some rv => rv
      | none =>
          if n == some "br" then "\n"
          else
            String.join (Tree.textList hook cs) ++
              (if n == some "p" then "\n\n" else "")
  | .mk .fragment n a v cb cs =>
      let t := Tree.mk .fragment n a v cb cs
      match renderCallback hook t true with
      | some rv => rv
      | none =>
          if n == some "br" then "\n"
          else
            String.join (Tree.textList hook cs) ++
              (if n == some "p" then "\n\n" else "")

/-- Text extraction mapped over a child list. -/
def Tree.textList (hook : Hook) : List Tree → List String
  | [] => []
  | c :: cs => Tree.text hook c :: Tree.textList hook cs

end

/-- Identified node: a node paired with its position path from the
query root.  Paths model Python object identity — inside one tree two
distinct live nodes are distinct objects and sit at distinct paths. -/
abbrev PNode : Type := List Nat × Tree

/-- Child list of an identified node, each child keeping its position
path. -/
def pchildren (p : PNode) : List PNode :=
  p.2.children.enum.map (fun ic => (p.1 ++ [ic.1], ic.2))

/-- Children of the query root (`self.children` in `Node.query`). -/
def rootChildren (t : Tree) : List PNode :=
  pchildren ([], t)

/-- Inner loop of `_iter_all`: yield the not-yet-seen children of one
node, threading the `seen_already` set (of identities, i.e. paths). -/
def iterAllKids : List PNode → List (List Nat) → List PNode × List (List Nat)
  | [], seen => ([], seen)
  | c :: cs, seen =>
      if c.1 ∈ seen then iterAllKids cs seen
      else
        let r := iterAllKids cs (c.1 :: seen)
        (c :: r.1, r.2)

/-- Outer loop of `_iter_all`: for each not-yet-seen node yield the
node and then its not-yet-seen direct children. -/
def iterAllGo : List PNode → List (List Nat) → List PNode
  | [], _ => []
  | n :: rest, seen =>
      if n.1 ∈ seen then iterAllGo rest seen
      else
        let kids := iterAllKids (pchildren n) (n.1 :: seen)
        n :: kids.1 ++ iterAllGo rest kids.2

/-- _iter_all: iterate over all nodes and ignore double matches
(each listed node followed by its direct children, deduplicated by
identity). -/
def iter_all (nodes : List PNode) : List PNode :=
  iterAllGo nodes []

/-- Python exception kinds surfaced by the modelled code. -/
inductive PyErr where
  | typeError
  | valueError
  | indexError
  | nameError
deriving DecidableEq

/-- str.split(sep, 1): the text before the first separator, and
(when the separator occurs) the text after it. -/
def splitFirst (sep : Char) : List Char → List Char × Option (List Char)
  | [] => ([], none)
  | c :: cs =>
      if c = sep then ([], some cs)
      else
        let r := splitFirst sep cs
        (c :: r.1, r.2)

/-- str.split(sep): split at every occurrence of the separator. -/
def splitAll (sep : Char) : List Char → List (List Char)
  | [] => [[]]
  | c :: cs =>
      let r := splitAll sep cs
      if c = sep then [] :: r
      else
        match r with
        | h :: t => (c :: h) :: t
        | [] => [[c]]

/-- Check whether the first list is an initial segment of the second
(helper for the Python substring test `sub in s`). -/
def startsWithSub : List Char → List Char → Bool
  | [], _ => true
  | _ :: _, [] => false
  | s :: ss, c :: cs => s == c && startsWithSub ss cs

/-- Python substring membership `sub in s` on character lists. -/
def containsSub (sub : List Char) : List Char → Bool
  | [] => sub.isEmpty
  | c :: cs => startsWithSub sub (c :: cs) || containsSub sub cs

/-- Reified bracket-predicate closure built by `_query` (`test`). -/
inductive AttrTest where
  | eqTest (key value : String)
  | neTest (key value : String)
  | absTest (key : String)
  | presTest (key : String)
deriving DecidableEq

/-- attributes.get(key): first binding of the key in the attribute
dictionary. -/
def attrsGet (a : List (String × String)) (k : String) : Option String :=
  (a.find? (fun kv => kv.1 == k)).map (fun kv => kv.2)

/-- key in attributes: key membership in the attribute dictionary. -/
def attrsHas (a : List (String × String)) (k : String) : Bool :=
  a.any (fun kv => kv.1 == k)

/-- Evaluation of a reified bracket predicate on a node. -/
def evalAttrTest : AttrTest → Tree → Bool
  | .eqTest k v, t => attrsGet t.attributes k == some v
  | .neTest k v, t => !(attrsGet t.attributes k == some v)
  | .absTest k, t => !(attrsHas t.attributes k)
  | .presTest k, t => attrsHas t.attributes k

/-- _query, with explicit recursion fuel.  Fuel only bounds the nesting
depth of `rest` segments; since every `rest` is strictly shorter than
the rule, `rule.length + 1` fuel (as supplied by `Tree.query`) can
never run out.  The branch order deliberately mirrors the source:
the `'=' in rule` test comes before the `'!=' in rule` test, so the
not-equal branch is dead code (any rule containing `!=` also contains
`=`); were the dead branch ever reached, `'='` would not occur in the
rule, `rule.split('!=')` would yield a single part and the unpacking
`key, value = ...` would raise ValueError, which is the modelled
result. -/
def queryFuel : Nat → List PNode → List Char → Except PyErr (List PNode)
  | 0, _, _ => .error .valueError
  | fuel + 1, nodes0, rule0 =>
      let step : List PNode × List Char :=
        match rule0 with
        | '/' :: r => (nodes0, r)
        | _ => (iter_all nodes0, rule0)
      let nodes1 := step.1
      let sp := splitFirst '/' step.2
      let part0 := sp.1
      let rest : Option (List Char) :=
        match sp.2 with
        | some r => if r.isEmpty then none else some r
        | none => none
      let bracket : Except PyErr (List Char × Option AttrTest) :=
        if part0.getLast? = some ']' then
          match splitFirst '[' part0 with
          | (pre, some inner0) =>
              let inner := inner0.dropLast
              if inner.contains '=' then
                match splitAll '=' inner with
                | [k, v] => .ok (pre, some (.eqTest k.asString v.asString))
                | _ => .error .valueError
              else if containsSub ['!', '='] inner then .error .valueError
              else
                match inner with
                | '!' :: k => .ok (pre, some (.absTest k.asString))
                | '@' :: k => .ok (pre, some (.presTest k.asString))
                | _ => .error .valueError
          | (_, none) => .error .valueError
        else .ok (part0, none)
      match bracket with
      | .error e => .error e
      | .ok (part, test) =>
          let partS : String := part.asString
          let nodes2 :=
            if partS = "#" then nodes1.filter (fun p => p.2.value.isSome)
            else if partS = "+" then nodes1.filter (fun p => p.2.value.isNone)
            else if partS = "*" then nodes1
            else nodes1.filter (fun p => p.2.name == some partS)
          let nodes3 :=
            match test with
            | none => nodes2
            | some tst => nodes2.filter (fun p => evalAttrTest tst p.2)
          match rest with
          | none => .ok nodes3
          | some r => do
              let rss ← nodes3.mapM (fun n => queryFuel fuel (pchildren n) r)
              pure rss.flatten

/-- Node.query: run `_query` on the node's children. -/
def Tree.query (t : Tree) (rule : String) : Except PyErr (List PNode) :=
  queryFuel (rule.length + 1) (rootChildren t) rule.toList

/-- QueryResult state: `gen` is the suspended generator (`none` once
`__iter__` has run it to completion and set `self._gen = None`,
otherwise the list of items it has yet to yield), `results` is the
memo list of items yielded so far. -/
structure QueryResult (α : Type) where
  gen : Option (List α)
  results : List α

/-- QueryResult(gen): a fresh result over a generator that has the
given items left to yield, with an empty memo. -/
def QueryResult.fresh {α : Type} (items : List α) : QueryResult α :=
  ⟨some items, []⟩

/-- QueryResult.__iter__, run to completion: the sequence of items one
full traversal yields, together with the state afterwards.  With the
generator exhausted (`gen = none`) the memo is replayed; otherwise
only the generator's remaining items are yielded (each appended to the
memo) and the generator is marked exhausted. -/
def QueryResult.iterate {α : Type} : QueryResult α → List α × QueryResult α
  | ⟨none, results⟩ => (results, ⟨none, results⟩)
  | ⟨some pending, results⟩ => (pending, ⟨none, results ++ pending⟩)

/-- QueryResult._fetchall: drive the generator to completion (a no-op
when it is already exhausted). -/
def QueryResult.fetchall {α : Type} : QueryResult α → QueryResult α
  | ⟨none, results⟩ => ⟨none, results⟩
  | ⟨some pending, results⟩ => ⟨none, results ++ pending⟩

/-- Python list indexing with negative-index support; IndexError when
out of range. -/
def pyListIndex {α : Type} (l : List α) (idx : Int) : Except PyErr α :=
  let j : Int := if idx < 0 then (l.length : Int) + idx else idx
  if h : 0 ≤ j ∧ j.toNat < l.length then .ok (l.get ⟨j.toNat, h.2⟩)
  else .error .indexError

/-- Main body of QueryResult.__getitem__ (after the negative-index
materialization step): an index below the memoized length (or any
index once the generator is exhausted) is answered from the memo;
otherwise the generator is driven item by item (each appended to the
memo) until the index is reached — leaving the generator suspended —
or until it is exhausted, which marks it exhausted and raises
IndexError.  The returned pair is (result-or-exception, state
afterwards). -/
def QueryResult.getItemGo {α : Type} :
    QueryResult α → Int → Except PyErr α × QueryResult α
  | ⟨none, results⟩, idx => (pyListIndex results idx, ⟨none, results⟩)
  | ⟨some pending, results⟩, idx =>
      if idx < (results.length : Int) then
        (pyListIndex results idx, ⟨some pending, results⟩)
      else
        let k := (idx - (results.length : Int)).toNat
        if hk : k < pending.length then
          (.ok (pending.get ⟨k, hk⟩),
           ⟨some (pending.drop (k + 1)), results ++ pending.take (k + 1)⟩)
        else (.error .indexError, ⟨none, results ++ pending⟩)

/-- QueryResult.__getitem__: a negative index first forces full
materialization, then the memo/generator lookup `getItemGo` runs. -/
def QueryResult.getItem {α : Type} (r0 : QueryResult α) (idx : Int) :
    Except PyErr α × QueryResult α :=
  QueryResult.getItemGo (if idx < 0 then r0.fetchall else r0) idx

/-- QueryResult.first: the item at index 0. -/
def QueryResult.firstItem {α : Type} (r : QueryResult α) :
    Except PyErr α × QueryResult α :=
  r.getItem 0

/-- QueryResult.last: the item at index -1 (forces full
materialization). -/
def QueryResult.lastItem {α : Type} (r : QueryResult α) :
    Except PyErr α × QueryResult α :=
  r.getItem (-1)

/-- NodeList state: the child-id sequence of one owner node plus the
global parent map (object identity modelled by natural-number ids;
`parent i = some o` means node `i` is bound to owner `o`). -/
structure ListState where
  parent : Nat → Option Nat
  elems : List Nat

/-- Pointwise update of the parent map. -/
def updateParent (p : Nat → Option Nat) (i : Nat) (v : Option Nat) :
    Nat → Option Nat :=
  fun j => if j = i then v else p j

/-- Python list slicing l[start:stop] for non-negative indices (out of
range indices clamp). -/
def pySlice {α : Type} (l : List α) (start stop : Nat) : List α :=
  (l.drop start).take (stop - start)

namespace NodeList

/-- NodeList.append: reject (TypeError, the OwnershipViolation kind)
when the node is already bound, leaving everything unchanged;
otherwise bind the node to the owner and append it. -/
def append (owner : Nat) (st : ListState) (item : Nat) :
    ListState × Option PyErr :=
  if (st.parent item).isSome then (st, some .typeError)
  else
    ({ parent := updateParent st.parent item (some owner),
       elems := st.elems ++ [item] }, none)

/-- Python list.insert index normalization (negative counts from the
end, clamping at both ends). -/
def pyInsertIdx (len : Nat) (pos : Int) : Nat :=
  if pos < 0 then ((len : Int) + pos).toNat else min pos.toNat len

/-- NodeList.insert: reject (TypeError) when the node is already
bound, leaving everything unchanged; otherwise bind the node and
insert it at the given position. -/
def insert (owner : Nat) (st : ListState) (pos : Int) (item : Nat) :
    ListState × Option PyErr :=
  if (st.parent item).isSome then (st, some .typeError)
  else
    let j := pyInsertIdx st.elems.length pos
    ({ parent := updateParent st.parent item (some owner),
       elems := st.elems.take j ++ item :: st.elems.drop j }, none)

/-- NodeList.pop: pop the node at the index (default -1); IndexError
(state unchanged) when out of range, otherwise remove it from the list
and unbind its parent. -/
def pop (st : ListState) (index : Option Int) : ListState × Except PyErr Nat :=
  let idx : Int := match index with | none => -1 | some i => i
  let j : Int := if idx < 0 then (st.elems.length : Int) + idx else idx
  if h : 0 ≤ j ∧ j.toNat < st.elems.length then
    let node := st.elems.get ⟨j.toNat, h.2⟩
    ({ parent := updateParent st.parent node none,
       elems := st.elems.take j.toNat ++ st.elems.drop (j.toNat + 1) },
     .ok node)
  else (st, .error .indexError)

/-- NodeList.__delitem__: implemented as pop(idx). -/
def delitem (st : ListState) (idx : Int) : ListState × Except PyErr Nat :=
  pop st (some idx)

/-- NodeList.__delslice__: unbind every node in the slice, then delete
the slice from the list. -/
def delslice (st : ListState) (start stop : Nat) : ListState :=
  let removed := pySlice st.elems start stop
  { parent := fun j => if j ∈ removed then none else st.parent j,
    elems := st.elems.take start ++ st.elems.drop (max start stop) }

/-- NodeList.__setitem__ (integer index): reject (TypeError) when the
incoming node is already bound; IndexError when the index is out of
range; otherwise unbind the outgoing node, bind the incoming one and
store it. -/
def setitem (owner : Nat) (st : ListState) (idx : Int) (item : Nat) :
    ListState × Option PyErr :=
  if (st.parent item).isSome then (st, some .typeError)
  else
    let j : Int := if idx < 0 then (st.elems.length : Int) + idx else idx
    if h : 0 ≤ j ∧ j.toNat < st.elems.length then
      let node := st.elems.get ⟨j.toNat, h.2⟩
      ({ parent := updateParent (updateParent st.parent node none) item (some owner),
         elems := st.elems.set j.toNat item }, none)
    else (st, some .indexError)

/-- Loop body of NodeList.__setslice__ over the zipped
(outgoing, incoming) pairs.  When the incoming node is already bound
the source evaluates `'%r already bound to %r' % (item, item.parent)`
with `item` an undefined name, so NameError (not the ownership
TypeError) is raised, with no mutation yet.  Otherwise the outgoing
node is unbound, the incoming node is bound, and the element is stored
via `self[idx] = new`, i.e. through `__setitem__` — whose own
ownership check then sees the just-bound incoming node and raises
TypeError, aborting the loop with the bindings already mutated. -/
def setsliceLoop (owner : Nat) :
    List (Nat × Nat) → Nat → ListState → ListState × Option PyErr
  | [], _, st => (st, none)
  | pr :: rest, idx, st =>
      if (st.parent pr.2).isSome then (st, some .nameError)
      else
        let st2 : ListState :=
          { st with
            parent := updateParent (updateParent st.parent pr.1 none) pr.2 (some owner) }
        match setitem owner st2 idx pr.2 with
        | (st3, some e) => (st3, some e)
        | (st3, none) => setsliceLoop owner rest (idx + 1) st3

/-- NodeList.__setslice__: iterate over izip(self[start:end], seq)
starting at position start. -/
def setslice (owner : Nat) (st : ListState) (start stop : Nat)
    (seq : List Nat) : ListState × Option PyErr :=
  setsliceLoop owner (List.zip (pySlice st.elems start stop) seq) start st

end NodeList

/-- Hook resolving no callback at all (no plugin answers). -/
def hook0 : Hook := fun _ _ _ _ => none

/-- Open tag emitted by `Node.render`: tag name plus the
space-separated `key=quoted-value` attribute serialization. -/
def openTag (n : String) (a : List (String × String)) : String :=
  let attributes :=
    String.intercalate " " (a.map (fun kv => kv.1 ++ "=" ++ quoteattr kv.2))
  "<" ++ n ++ (if attributes == "" then "" else " " ++ attributes) ++ ">"

/-- The node built by `Node('div')`: an element with no attributes,
children, value or callbacks — a falsy node. -/
def bareDiv : Tree := .mk .element (some "div") [] none none []

/-- The node built by `TextNode('')`: a text node with empty value —
a falsy node. -/
def bareText : Tree := .mk .text none [] (some "") none []

/-- Identities (paths) enumerated by one `_iter_all` pass: each listed
node followed by its direct children. -/
def allPaths12 (ns : List PNode) : List (List Nat) :=
  ns.flatMap (fun n => n.1 :: (pchildren n).map Prod.fst)

/-- A bare span element. -/
def spanNode : Tree := .mk .element (some "span") [] none none []

/-- A div element whose only child is a span. -/
def divSpan : Tree := .mk .element (some "div") [] none none [spanNode]

/-- Fragment holding a div holding a span (span at depth 2). -/
def fragDivSpan : Tree := .mk .fragment none [] none none [divSpan]

/-- A div element whose only child is `divSpan` (span at depth 3). -/
def divDivSpan : Tree := .mk .element (some "div") [] none none [divSpan]

/-- Fragment holding a div holding a div holding a span: the span sits
at depth 3 below the fragment. -/
def deepTree : Tree := .mk .fragment none [] none none [divDivSpan]

/-- A div element with attribute class="other". -/
def divClassOther : Tree :=
  .mk .element (some "div") [("class", "other")] none none []

/-- Fragment holding `divClassOther`. -/
def fragClassOther : Tree := .mk .fragment none [] none none [divClassOther]

/-- A div element with attributes class="syntax" and a literal
"class!"="syntax" binding. -/
def divBang : Tree :=
  .mk .element (some "div") [("class", "syntax"), ("class!", "syntax")]
    none none []

/-- Fragment holding `divBang`. -/
def fragBang : Tree := .mk .fragment none [] none none [divBang]

/-- A text node with value "a&b" and a callback attached. -/
def textWithCb : Tree :=
  .mk .text none [] (some "a&b") (some [("cb", none)]) []

/-- List state: node 1 is the only element, bound to owner 9. -/
def stOwned : ListState :=
  ⟨fun j => if j = 1 then some 9 else none, [1]⟩

/-- List state for the slice-assignment scenario: node 1 is the only
element, bound to owner 0; node 2 is unbound. -/
def stC5 : ListState :=
  ⟨fun j => if j = 1 then some 0 else none, [1]⟩

/-- Like `stC5` but with the incoming node 2 already bound to owner 3. -/
def stC5owned : ListState :=
  ⟨fun j => if j = 1 then some 0 else if j = 2 then some 3 else none, [1]⟩

/-- The scenario tree of claim C8: a fragment holding one paragraph
with children text "a", a br element and text "b". -/
def paraTree : Tree :=
  .mk .fragment none [] none none
    [.mk .element (some "p") [] none none
      [.mk .text none [] (some "a") none [],
       .mk .element (some "br") [] none none [],
       .mk .text none [] (some "b") none []]]

theorem natToKind_kindToNat (k : NodeKind) : natToKind (kindToNat k) = some k := by
  cases k <;> rfl

theorem updateParent_self (p : Nat → Option Nat) (i : Nat) (v : Option Nat) :
    updateParent p i v i = v := by
  simp [updateParent]

theorem cbTruthy_eq_false (cb : Option (List (String × Option String))) :
    cbTruthy cb = false ↔ (cb = none ∨ cb = some []) := by
  cases cb with
  | none => simp [cbTruthy]
  | some l => cases l <;> simp [cbTruthy]

theorem optStrTruthy_eq_false (v : Option String) :
    optStrTruthy v = false ↔ (v = none ∨ v = some "") := by
  cases v with
  | none => simp [optStrTruthy]
  | some s => simp [optStrTruthy]

mutual

theorem loadWalk_dumpWalk : (t : Tree) → loadWalk (dumpWalk t) = some t
  | .mk k n a v cb cs => by
      simp [dumpWalk, loadWalk, natToKind_kindToNat,
        loadWalkList_dumpWalkList cs]

theorem loadWalkList_dumpWalkList :
    (cs : List Tree) → loadWalkList (dumpWalkList cs) = some cs
  | [] => rfl
  | c :: cs => by
      simp [dumpWalkList, loadWalkList, loadWalk_dumpWalk c,
        loadWalkList_dumpWalkList cs]

end

/-- Claim C1, counterexample: the round-trip `load_tree(dump_tree(t))`
fails on the falsy element node `Node('div')` — the dump is the empty
string, so the load rebuilds an empty `Fragment` and not an element
named "div". -/
theorem claim_C1_counterexample :
    load_tree (dump_tree bareDiv) ≠ some bareDiv ∧
    load_tree (dump_tree bareDiv) = some emptyFragment := by
  refine ⟨fun h => ?_, rfl⟩
  have h2 : emptyFragment = bareDiv := Option.some.inj h
  have h3 := congrArg Tree.kind h2
  exact absurd h3 (by decide)

/-- Claim C1 (amended): serialization round-trip holds for every tree
that is truthy (has children, attributes, callback data or a non-empty
value); every falsy tree — including falsy non-Fragment nodes such as
`Node('div')` or `TextNode('')` — dumps to the empty string and loads
back as an empty `Fragment`. -/
theorem claim_C1_amended (t : Tree) :
    load_tree (dump_tree t) =
      some (if t.nonzero then t else emptyFragment) := by
  by_cases h : t.nonzero = true
  · simp [dump_tree, h, load_tree, loadWalk_dumpWalk]
  · simp [dump_tree, h, load_tree, Bool.not_eq_true _ ▸ h]

/-- Claim C10: the empty-tree special case of the codec keys on node
falsiness, not on the Fragment variant — a node is falsy exactly when
it has no children, no attributes, falsy callback data and a
null-or-empty value; every falsy node dumps to the empty string; and
loading the empty string yields the empty `Fragment`, whatever was
dumped. -/
theorem claim_C10 (t : Tree) :
    (t.nonzero = false ↔
      (t.children = [] ∧ t.attributes = [] ∧
       (t.callback_data = none ∨ t.callback_data = some []) ∧
       (t.value = none ∨ t.value = some ""))) ∧
    (t.nonzero = false → dump_tree t = none) ∧
    load_tree none = some emptyFragment := by
  refine ⟨?_, fun h => by simp [dump_tree, h], rfl⟩
  obtain ⟨k, n, a, v, cb, cs⟩ := t
  simp [Tree.nonzero, Tree.children, Tree.attributes, Tree.callback_data,
    Tree.value, cbTruthy_eq_false, optStrTruthy_eq_false]
  tauto

/-- Claim C10, witness: `Node('div')` and `TextNode('')` both dump to
the empty string; loading the empty string yields the empty Fragment. -/
theorem claim_C10_witness :
    dump_tree bareDiv = none ∧ dump_tree bareText = none ∧
    load_tree none = some emptyFragment :=
  ⟨(claim_C10 bareDiv).2.1 (by rfl), (claim_C10 bareText).2.1 (by rfl),
   (claim_C10 bareDiv).2.2⟩

/-- Claim C7: rendering an element whose tag name is in the fixed
self-closing set emits exactly the open tag — hence no closing tag, no
child content and no injected text — whatever the children, attributes
and `inject` argument are, provided no render callback overrides the
rendering wholesale (a callback answer replaces the whole output
before the structural rendering path is reached, so it is excluded
here as in the spec's structural-rendering scope). -/
theorem claim_C7 (hook : Hook) (n : String) (a : List (String × String))
    (v : Option String) (cb : Option (List (String × Option String)))
    (cs : List Tree) (inject : Option String)
    (hn : n ∈ SELF_CLOSING_TAGS)
    (hcb : renderCallback hook (Tree.mk .element (some n) a v cb cs) false = none) :
    Tree.render hook (Tree.mk .element (some n) a v cb cs) inject = openTag n a := by
  have hc : SELF_CLOSING_TAGS.contains n = true := by simpa using hn
  cases inject with
  | none => simp [Tree.render, hcb, pyName, hc, openTag, hn]
  | some s => simp [Tree.render, pyName, hc, openTag, hn]

/-- Claim C7, witness: a br element with a child, rendered with
injected text, emits just the open tag. -/
theorem claim_C7_witness :
    Tree.render hook0
      (Tree.mk .element (some "br") [] none none [spanNode]) (some "HELLO")
      = "<br>" :=
  (claim_C7 hook0 "br" [] none none [spanNode] (some "HELLO")
    (by decide) rfl).trans rfl

/-- Claim C8: text extraction on a node with no render callbacks
attached — a text node yields its value, a data node the empty string,
a br element exactly one newline, a p element its children's joined
text followed by a double newline, any other element and the
(name-less, as constructed) Fragment the plain join of the children's
text; and the scenario Fragment[p[Text "a", br, Text "b"]] yields
"a\nb\n\n". -/
theorem claim_C8 (hook : Hook) (n : Option String)
    (a : List (String × String)) (v : Option String)
    (cb : Option (List (String × Option String))) (cs : List Tree)
    (hcb : cb = none ∨ cb = some []) :
    Tree.text hook (Tree.mk .text n a v cb cs) = pyStr v ∧
    Tree.text hook (Tree.mk .data n a v cb cs) = "" ∧
    Tree.text hook (Tree.mk .element (some "br") a v cb cs) = "\n" ∧
    Tree.text hook (Tree.mk .element (some "p") a v cb cs) =
      String.join (Tree.textList hook cs) ++ "\n\n" ∧
    (∀ nm : String, nm ≠ "br" → nm ≠ "p" →
      Tree.text hook (Tree.mk .element (some nm) a v cb cs) =
        String.join (Tree.textList hook cs)) ∧
    Tree.text hook (Tree.mk .fragment none a v cb cs) =
      String.join (Tree.textList hook cs) ∧
    Tree.text hook0 paraTree = "a\nb\n\n" := by
  have hrc : ∀ (k : NodeKind) (n2 : Option String),
      renderCallback hook (Tree.mk k n2 a v cb cs) true = none := by
    rcases hcb with rfl | rfl <;> intro k n2 <;>
      simp [renderCallback, Tree.callback_data]
  refine ⟨?_, ?_, ?_, ?_, ?_, ?_, rfl⟩
  · simp [Tree.text]
  · simp [Tree.text]
  · simp [Tree.text, hrc]
  · simp [Tree.text, hrc]
  · intro nm h1 h2
    simp [Tree.text, hrc, h1, h2]
  · simp [Tree.text, hrc]

/-- Claim C8, witness: a br element with no callbacks yields exactly
one newline. -/
theorem claim_C8_witness :
    Tree.text hook0 (Tree.mk .element (some "br") [] none none []) = "\n" :=
  (claim_C8 hook0 none [] none none [] (Or.inl rfl)).2.2.1

/-- Claim C9: `render` on the Text, Data and Fragment variants ignores
both the `inject` argument and any attached `callback_data` — the
right-hand sides depend on neither — so only Element nodes ever
consult the node-callback hook for themselves at render time (a
fragment's element children, rendered recursively, may still consult
it). -/
theorem claim_C9 (hook : Hook) (t : Tree) (inject : Option String) :
    (t.kind = .text → Tree.render hook t inject = xml_escape (pyStr t.value)) ∧
    (t.kind = .data → Tree.render hook t inject = pyStr t.value) ∧
    (t.kind = .fragment →
      Tree.render hook t inject = String.join (Tree.renderList hook t.children)) := by
  obtain ⟨k, n, a, v, cb, cs⟩ := t
  refine ⟨fun h => ?_, fun h => ?_, fun h => ?_⟩ <;> cases k <;>
    simp_all [Tree.kind, Tree.render, Tree.value, Tree.children]

/-- Claim C9, witness: a text node with a callback attached, rendered
with a non-null inject, still renders as its escaped value. -/
theorem claim_C9_witness :
    Tree.render hook0 textWithCb (some "X") = xml_escape (pyStr (some "a&b")) :=
  (claim_C9 hook0 textWithCb (some "X")).1 rfl

theorem iterAllKids_fresh (cs : List PNode) (seen : List (List Nat))
    (hnd : (cs.map Prod.fst).Nodup)
    (hfresh : ∀ c ∈ cs, c.1 ∉ seen) :
    iterAllKids cs seen = (cs, (cs.map Prod.fst).reverse ++ seen) := by
  induction cs generalizing seen with
  | nil => simp [iterAllKids]
  | cons c cs ih =>
      have hc : c.1 ∉ seen := hfresh c (List.mem_cons_self c cs)
      have hnd' : (cs.map Prod.fst).Nodup := (List.nodup_cons.mp (by simpa using hnd)).2
      have hhead : c.1 ∉ cs.map Prod.fst := (List.nodup_cons.mp (by simpa using hnd)).1
      have hfresh' : ∀ x ∈ cs, x.1 ∉ (c.1 :: seen) := by
        intro x hx hmem
        rcases List.mem_cons.mp hmem with h1 | h2
        · exact hhead (h1 ▸ List.mem_map_of_mem Prod.fst hx)
        · exact hfresh x (List.mem_cons_of_mem c hx) h2
      rw [iterAllKids, if_neg hc, ih (c.1 :: seen) hnd' hfresh']
      simp

theorem iterAllGo_fresh (ns : List PNode) (seen : List (List Nat))
    (hnd : (allPaths12 ns).Nodup)
    (hfresh : ∀ p ∈ allPaths12 ns, p ∉ seen) :
    iterAllGo ns seen = ns.flatMap (fun n => n :: pchildren n) := by
  induction ns generalizing seen with
  | nil => simp [iterAllGo]
  | cons n rest ih =>
      have hsplit : allPaths12 (n :: rest) =
          (n.1 :: (pchildren n).map Prod.fst) ++ allPaths12 rest := by
        simp [allPaths12]
      rw [hsplit] at hnd hfresh
      have hnd1 : (n.1 :: (pchildren n).map Prod.fst).Nodup :=
        (List.nodup_append.mp hnd).1
      have hnd2 : (allPaths12 rest).Nodup := (List.nodup_append.mp hnd).2.1
      have hdisj : ∀ p, p ∈ (n.1 :: (pchildren n).map Prod.fst) →
          p ∈ allPaths12 rest → False :=
        fun p h1 h2 => (List.nodup_append.mp hnd).2.2 h1 h2
      have hn1 : n.1 ∉ seen := hfresh n.1 (by simp)
      have hkidsnd : ((pchildren n).map Prod.fst).Nodup :=
        (List.nodup_cons.mp hnd1).2
      have hn1kids : n.1 ∉ (pchildren n).map Prod.fst :=
        (List.nodup_cons.mp hnd1).1
      have hkfresh : ∀ c ∈ pchildren n, c.1 ∉ (n.1 :: seen) := by
        intro c hc hmem
        rcases List.mem_cons.mp hmem with h1 | h2
        · exact hn1kids (h1 ▸ List.mem_map_of_mem Prod.fst hc)
        · exact hfresh c.1
            (List.mem_append_left _
              (List.mem_cons_of_mem _ (List.mem_map_of_mem Prod.fst hc))) h2
      have hfresh2 : ∀ p ∈ allPaths12 rest,
          p ∉ (((pchildren n).map Prod.fst).reverse ++ n.1 :: seen) := by
        intro p hp hmem
        rcases List.mem_append.mp hmem with h1 | h2
        · exact hdisj p (List.mem_cons_of_mem _ (List.mem_reverse.mp h1)) hp
        · rcases List.mem_cons.mp h2 with h3 | h4
          · exact hdisj p (h3 ▸ List.mem_cons_self _ _) hp
          · exact hfresh p (List.mem_append_right _ hp) h4
      rw [iterAllGo, if_neg hn1,
        iterAllKids_fresh (pchildren n) (n.1 :: seen) hkidsnd hkfresh]
      show n :: pchildren n ++
          iterAllGo rest (((pchildren n).map Prod.fst).reverse ++ n.1 :: seen) =
        (n :: rest).flatMap fun x => x :: pchildren x
      rw [ih _ hnd2 hfresh2]
      simp

/-- Claim C2, counterexample: `query("span")` does NOT find spans at
arbitrary depth — on a fragment whose depth-3 descendant is a span
element the query returns no results at all, because `_iter_all`
expands the context by only one extra level (children plus
grandchildren), not recursively. -/
theorem claim_C2_counterexample :
    Tree.query deepTree "span" = .ok [] ∧
    (((deepTree.children.headD emptyFragment).children.headD
        emptyFragment).children.headD emptyFragment).name = some "span" :=
  ⟨rfl, rfl⟩

/-- Claim C2 (amended): for a rule without a leading `/`, the
candidate set that the first segment filters is the context nodes plus
their direct children only — for `query` on a node, its children plus
its grandchildren, deduplicated by identity — not all descendants to
arbitrary depth; a single-segment `query("span")` therefore finds the
span elements among children and grandchildren only.  With a leading
`/`, only direct children are candidates.  (The identity-distinctness
hypothesis always holds for the position paths of one tree.) -/
theorem claim_C2_amended (t : Tree)
    (hnd : (allPaths12 (rootChildren t)).Nodup) :
    iter_all (rootChildren t) =
      (rootChildren t).flatMap (fun n => n :: pchildren n) ∧
    Tree.query t "/span" =
      .ok ((rootChildren t).filter (fun p => p.2.name == some "span")) ∧
    Tree.query t "span" =
      .ok (((rootChildren t).flatMap (fun n => n :: pchildren n)).filter
        (fun p => p.2.name == some "span")) := by
  have h1 : iter_all (rootChildren t) =
      (rootChildren t).flatMap (fun n => n :: pchildren n) :=
    iterAllGo_fresh _ _ hnd (fun p hp hmem => List.not_mem_nil p hmem)
  have h2 : Tree.query t "span" =
      .ok ((iter_all (rootChildren t)).filter
        (fun p => p.2.name == some "span")) := rfl
  rw [h1] at h2
  exact ⟨h1, rfl, h2⟩

/-- Claim C2, witness: on a fragment holding a div holding a span, the
query "span" finds exactly the grandchild span (at path [0, 0]). -/
theorem claim_C2_witness :
    Tree.query fragDivSpan "span" = .ok [([0, 0], spanNode)] := by
  rw [(claim_C2_amended fragDivSpan (by decide)).2.2]
  rfl

/-- Claim C3 is contradicted by the code: the `'=' in rule` test comes
before the `'!=' in rule` test, so the predicate `[class!=syntax]` is
parsed as attribute `"class!"` equals `"syntax"`.  Hence a div whose
`class` is `"other"` (claim: should match, since class differs from
syntax) is NOT returned, and a div with `class="syntax"` but also a
literal `"class!"="syntax"` binding (claim: must not match, since its
class equals syntax) IS returned. -/
theorem claim_C3_eval :
    Tree.query fragClassOther "div[class!=syntax]" = .ok [] ∧
    attrsGet divClassOther.attributes "class" = some "other" ∧
    Tree.query fragBang "div[class!=syntax]" = .ok [([0], divBang)] ∧
    attrsGet divBang.attributes "class" = some "syntax" :=
  ⟨rfl, rfl, rfl, rfl⟩

/-- Claim C6, counterexample: after a partial first traversal (the
index access `r[0]`, which consumed one generator item into the memo),
the next traversal does NOT replay the same node sequence — it yields
only the generator's remaining items `[2, 3]`, skipping the memoized
prefix, rather than replaying `[1, 2, 3]` (or the consumed prefix
`[1]`). -/
theorem claim_C6_counterexample :
    (QueryResult.getItem (QueryResult.fresh [1, 2, 3]) 0).1 = Except.ok 1 ∧
    (QueryResult.iterate
      ((QueryResult.getItem (QueryResult.fresh [1, 2, 3]) 0).2)).1 = [2, 3] ∧
    [2, 3] ≠ [1, 2, 3] :=
  ⟨rfl, rfl, by decide⟩

/-- Claim C6 (amended): the first full traversal drives the generator
and memoizes every yielded item; a traversal after a COMPLETE
traversal replays exactly the memo without re-running the generator; a
negative index (hence also `.last`) forces full materialization; an
index at or beyond the memoized length drives the generator until the
index is reached — the answer agreeing with indexing the full
materialized sequence — and yields IndexError (marking the generator
exhausted) when it runs out first.  However, after a PARTIAL first
traversal (an index access that consumed only a prefix), a subsequent
traversal does not replay the memo: it yields only the generator's
remaining items, appending them to the memo. -/
theorem claim_C6_amended :
    (∀ (α : Type) (items : List α),
      QueryResult.iterate (QueryResult.fresh items) =
        (items, ⟨none, items⟩)) ∧
    (∀ (α : Type) (r : QueryResult α), r.gen = none →
      QueryResult.iterate r = (r.results, r)) ∧
    (∀ (α : Type) (r : QueryResult α) (idx : Int), idx < 0 →
      (QueryResult.getItem r idx).2.gen = none) ∧
    (∀ (α : Type) (results pending : List α) (idx : Int),
      (results.length : Int) ≤ idx →
      (QueryResult.getItem ⟨some pending, results⟩ idx).1 =
        pyListIndex (results ++ pending) idx) ∧
    (∀ (α : Type) (results pending : List α) (idx : Int),
      ((results.length + pending.length : Nat) : Int) ≤ idx →
      QueryResult.getItem ⟨some pending, results⟩ idx =
        (.error .indexError, ⟨none, results ++ pending⟩)) ∧
    (∀ (α : Type) (items : List α) (k : Nat), k < items.length →
      (QueryResult.iterate
        ((QueryResult.getItem (QueryResult.fresh items) ((k : Nat) : Int)).2)).1 =
        items.drop (k + 1)) := by
  have hgo : ∀ (α : Type) (results pending : List α) (idx : Int),
      (results.length : Int) ≤ idx →
      QueryResult.getItemGo ⟨some pending, results⟩ idx =
        (if hk : (idx - (results.length : Int)).toNat < pending.length then
          (.ok (pending.get ⟨(idx - (results.length : Int)).toNat, hk⟩),
           ⟨some (pending.drop ((idx - (results.length : Int)).toNat + 1)),
            results ++ pending.take ((idx - (results.length : Int)).toNat + 1)⟩)
        else (.error .indexError, ⟨none, results ++ pending⟩)) := by
    intro α results pending idx h
    have hlt : ¬ idx < (results.length : Int) := by omega
    rw [QueryResult.getItemGo, if_neg hlt]
  refine ⟨?_, ?_, ?_, ?_, ?_, ?_⟩
  · intro α items
    rfl
  · rintro α ⟨g, res⟩ h
    cases g with
    | none => rfl
    | some p => simp at h
  · rintro α ⟨g, res⟩ idx h
    cases g with
    | none => simp [QueryResult.getItem, if_pos h, QueryResult.fetchall,
        QueryResult.getItemGo]
    | some p => simp [QueryResult.getItem, if_pos h, QueryResult.fetchall,
        QueryResult.getItemGo]
  · intro α results pending idx h
    have h0 : ¬ idx < 0 := by omega
    rw [QueryResult.getItem, if_neg h0, hgo α results pending idx h]
    by_cases hk : (idx - (results.length : Int)).toNat < pending.length
    · rw [dif_pos hk]
      dsimp only
      simp only [pyListIndex, if_neg h0]
      have hcond : 0 ≤ idx ∧ idx.toNat < (results ++ pending).length := by
        rw [List.length_append]
        omega
      rw [dif_pos hcond]
      congr 1
      have heq : (idx - (results.length : Int)).toNat = idx.toNat - results.length := by
        omega
      rw [List.get_eq_getElem, List.get_eq_getElem,
        List.getElem_append_right (by omega : results.length ≤ idx.toNat)]
      simp only [heq]
    · rw [dif_neg hk]
      dsimp only
      simp only [pyListIndex, if_neg h0]
      have hcond : ¬ (0 ≤ idx ∧ idx.toNat < (results ++ pending).length) := by
        rw [List.length_append]
        omega
      rw [dif_neg hcond]
  · intro α results pending idx h
    have h0 : ¬ idx < 0 := by omega
    have hle : (results.length : Int) ≤ idx := by omega
    rw [QueryResult.getItem, if_neg h0, hgo α results pending idx hle]
    have hk : ¬ (idx - (results.length : Int)).toNat < pending.length := by
      omega
    rw [dif_neg hk]
  · intro α items k h
    have h0 : ¬ ((k : Nat) : Int) < 0 := by omega
    have hle : (([] : List α).length : Int) ≤ ((k : Nat) : Int) := by
      simp
    rw [QueryResult.getItem, if_neg h0]
    show (QueryResult.iterate (QueryResult.getItemGo ⟨some items, []⟩ ((k : Nat) : Int)).2).1 =
      items.drop (k + 1)
    rw [hgo α [] items ((k : Nat) : Int) hle]
    have hkk : (((k : Nat) : Int) - (([] : List α).length : Int)).toNat = k := by
      simp
    rw [dif_pos (by rw [hkk]; exact h)]
    simp [QueryResult.iterate, hkk]

/-- Claim C6, witness: indexing a fresh three-item result at 0 and
then traversing yields only the remaining two items. -/
theorem claim_C6_witness :
    (QueryResult.iterate
      ((QueryResult.getItem (QueryResult.fresh [5, 6, 7]) ((0 : Nat) : Int)).2)).1 =
      [6, 7] :=
  claim_C6_amended.2.2.2.2.2 Nat [5, 6, 7] 0 (by decide)

/-- Claim C4: appending or inserting an already-owned node into any
child sequence fails with the TypeError carrying the ownership
message (the OwnershipViolation kind) and leaves both the sequence and
the parent map unchanged; a node removed by pop (any index) or by
slice deletion has a null parent immediately afterwards. -/
theorem claim_C4 :
    (∀ (owner : Nat) (st : ListState) (item : Nat),
      (st.parent item).isSome = true →
      NodeList.append owner st item = (st, some .typeError)) ∧
    (∀ (owner : Nat) (st : ListState) (pos : Int) (item : Nat),
      (st.parent item).isSome = true →
      NodeList.insert owner st pos item = (st, some .typeError)) ∧
    (∀ (st : ListState) (index : Option Int) (n : Nat),
      (NodeList.pop st index).2 = .ok n →
      (NodeList.pop st index).1.parent n = none) ∧
    (∀ (st : ListState) (start stop n : Nat),
      n ∈ pySlice st.elems start stop →
      (NodeList.delslice st start stop).parent n = none) := by
  refine ⟨?_, ?_, ?_, ?_⟩
  · intro owner st item h
    simp [NodeList.append, h]
  · intro owner st pos item h
    simp [NodeList.insert, h]
  · intro st index n
    simp only [NodeList.pop]
    split <;> split
    all_goals intro hok
    all_goals
      first
        | (rw [← Except.ok.inj hok]; exact updateParent_self st.parent _ none)
        | simp at hok
  · intro st start stop n h
    simp [NodeList.delslice, h]

/-- Claim C4, witness: on a one-element list owning node 1, append and
insert of the owned node 1 fail with TypeError leaving the state
unchanged, and after pop(0) and a full slice delete node 1 is
unbound. -/
theorem claim_C4_witness :
    NodeList.append 7 stOwned 1 = (stOwned, some .typeError) ∧
    NodeList.insert 7 stOwned 0 1 = (stOwned, some .typeError) ∧
    (NodeList.pop stOwned (some 0)).1.parent 1 = none ∧
    (NodeList.delslice stOwned 0 1).parent 1 = none :=
  ⟨claim_C4.1 7 stOwned 1 rfl,
   claim_C4.2.1 7 stOwned 0 1 rfl,
   claim_C4.2.2.1 stOwned (some 0) 1 rfl,
   claim_C4.2.2.2 stOwned 0 1 1 (by decide)⟩

/-- Claim C5 is contradicted by the code, evaluated here: slice
assignment of an UNOWNED node never succeeds — the loop first sets the
incoming node's parent to the owner, then delegates to `__setitem__`,
whose ownership check sees the just-bound node and raises the
ownership TypeError; the list is left unchanged while the outgoing
node has been unbound and the incoming node bound (corrupted, as the
list does not contain it).  For an already-OWNED incoming node the
failure is a NameError (the raise references the undefined name
`item`), not the ownership TypeError.  Plain indexed assignment, by
contrast, does work as the claim says. -/
theorem claim_C5_eval :
    (NodeList.setslice 0 stC5 0 1 [2]).2 = some .typeError ∧
    (NodeList.setslice 0 stC5 0 1 [2]).1.elems = [1] ∧
    (NodeList.setslice 0 stC5 0 1 [2]).1.parent 1 = none ∧
    (NodeList.setslice 0 stC5 0 1 [2]).1.parent 2 = some 0 ∧
    (NodeList.setslice 0 stC5owned 0 1 [2]).2 = some .nameError ∧
    NodeList.setitem 0 stC5 0 2 =
      ({ parent := updateParent (updateParent stC5.parent 1 none) 2 (some 0),
         elems := [2] }, none) :=
  ⟨rfl, rfl, rfl, rfl, rfl, rfl⟩

end HtmlProcessor
